import Mathlib

/-!
Shallow embedding of the agent execution core of the repository
(src/app/agents/assistant.py, src/app/agents/base.py, src/app/agents/types.py).

The backend language model and the tool capabilities are external
collaborators; they are modelled as environment functions that either
return a value or fail (Python exception = the error case of Except).
The reply text of the backend model is paired with the result of
parsing it as JSON (the field `parsed`; `none` means json.loads raises),
since the embedding does not re-implement the JSON grammar itself.
Timestamps are modelled by a logical clock that ticks at every reading.
-/

namespace SuperAgent

/-- JSON-like values, the result type of json.loads on a model reply. -/
inductive JValue where
  | jnull
  | jbool (b : Bool)
  | jnum (n : Int)
  | jstr (s : String)
  | jarr (items : List JValue)
  | jobj (fields : List (String × JValue))

/-- AgentStatus enum from src/app/agents/types.py. -/
inductive AgentStatus where
  | idle
  | thinking
  | executing
  | waiting
  | error
  | done
deriving Repr, DecidableEq

/-- One message of the conversation history (a chat_history entry). -/
structure Turn where
  role : String
  content : String
  timestamp : Nat
deriving Repr, DecidableEq

/-- The status-update dict built by AssistantAgent._update_status. -/
structure AgentUpdate where
  type : String
  timestamp : Nat
  agent_role : String
  status : AgentStatus
  task : Option String
  elapsed : Nat
  error : Option String
deriving Repr, DecidableEq

/-- A reply of the backend model: response text, the outcome of
json.loads on that text, and the reported token cost. -/
structure ModelReply where
  message : String
  parsed : Option JValue
  token_count : Nat

/-- The backend model collaborator: outcome of the n-th record_message
call of the run (it may raise, the error case). -/
abbrev Backend := Nat → Except String ModelReply

/-- One registered tool: name, description and async capability. -/
structure ToolSpec where
  name : String
  description : String
  func : List (String × JValue) → Except String JValue

/-- The read-only collaborators of one agent instance: self.agent
(None when CAMEL initialization failed) and self.tools. -/
structure Env where
  agent : Option Backend
  tools : List ToolSpec

/-- The mutable per-instance and per-run state: self.status,
self.chat_history, self.token_count, plus the run bookkeeping
(number of backend calls made, logical clock, self.start_time). -/
structure RunState where
  status : AgentStatus
  chat_history : List Turn
  token_count : Nat
  calls : Nat
  clock : Nat
  start_time : Nat
deriving Repr, DecidableEq

/-- ToolResult from src/app/agents/types.py. -/
structure ToolResult where
  success : Bool
  result : Option JValue
  error : Option String

/-- AgentResult from src/app/agents/types.py. -/
structure AgentResult where
  success : Bool
  message : String
  chat_history : List Turn
  token_count : Nat
  execution_time : Nat
  error : Option String

/-- First binding of a key in a parsed JSON object. -/
def jLookup : List (String × JValue) → String → Option JValue
  | [], _ => none
  | (k, v) :: rest, key => if k == key then some v else jLookup rest key

/-- Python truthiness of a JSON value. -/
def truthy : JValue → Bool
  | .jnull => false
  | .jbool b => b
  | .jnum n => n != 0
  | .jstr s => !s.isEmpty
  | .jarr items => !items.isEmpty
  | .jobj fields => !fields.isEmpty

/-- Python str() of a JSON value; only the scalar cases are ever
observed by the embedded code paths (f-strings over tool names). -/
def pyStr : JValue → String
  | .jnull => "None"
  | .jbool true => "True"
  | .jbool false => "False"
  | .jnum n => toString n
  | .jstr s => s
  | .jarr _ => "<list>"
  | .jobj _ => "<dict>"

/-- Python value.get(key, default): succeeds on a dict, raises
AttributeError on any other value. -/
def pyGet (v : JValue) (key : String) (dflt : JValue) : Except String JValue :=
  match v with
  | .jobj fields => .ok ((jLookup fields key).getD dflt)
  | _ => .error ("AttributeError: object has no attribute get for key " ++ key)

/-- Python value[key] with a string key: dict lookup (KeyError when
missing), TypeError on values not subscriptable by a string. -/
def pyIndex (v : JValue) (key : String) : Except String JValue :=
  match v with
  | .jobj fields =>
    match jLookup fields key with
    | some x => .ok x
    | none => .error ("KeyError: " ++ key)
  | _ => .error ("TypeError: value not subscriptable by key " ++ key)

/-- Python iteration over a value: list elements, dict keys, string
characters; TypeError otherwise. -/
def pyIter (v : JValue) : Except String (List JValue) :=
  match v with
  | .jarr items => .ok items
  | .jobj fields => .ok (fields.map (fun kv => .jstr kv.1))
  | .jstr s => .ok (s.toList.map (fun ch => .jstr (String.mk [ch])))
  | _ => .error "TypeError: value is not iterable"

/-- Python **value argument unpacking: requires a mapping. -/
def asKwargs (v : JValue) : Except String (List (String × JValue)) :=
  match v with
  | .jobj fields => .ok fields
  | _ => .error "TypeError: argument after unpacking must be a mapping"

/-- The generator feeding the join in the EXECUTING banner of process:
t[\x7bname\x7d] for each element, which join requires to be a str. -/
def collectNames : List JValue → Except String (List String)
  | [] => .ok []
  | t :: rest =>
    match pyIndex t "name" with
    | .error e => .error e
    | .ok (.jstr s) =>
      match collectNames rest with
      | .error e => .error e
      | .ok names => .ok (s :: names)
    | .ok _ => .error "TypeError: sequence item expected str instance"

/-- The f-string of assistant.py line 81: joins the planned tool names. -/
def joinNames (v : JValue) : Except String String :=
  match pyIter v with
  | .error e => .error e
  | .ok items =>
    match collectNames items with
    | .error e => .error e
    | .ok names => .ok (String.intercalate ", " names)

/-- AssistantAgent._update_status (assistant.py lines 246 to 273):
builds the status dict. Unlike BaseAgent._update_status, this
override never assigns self.status, so the status field of the run
state is left unchanged — the embedding mirrors that. -/
def _update_status (c : RunState) (status : AgentStatus) (task : Option String)
    (err : Option String) : AgentUpdate × RunState :=
  ({ type := "agent_status"
   , timestamp := c.clock
   , agent_role := "assistant"
   , status := status
   , task := task
   , elapsed := c.clock - c.start_time
   , error := err },
   { c with clock := c.clock + 1 })

/-- One call of self.agent.record_message on the backend collaborator:
consumes the next reply of the backend oracle. -/
def record_message (b : Backend) (c : RunState) : Except String ModelReply × RunState :=
  (b c.calls, { c with calls := c.calls + 1 })

/-- The default classification returned by _analyze_request when the
backend is absent or its reply fails to parse. -/
def defaultAnalysis (message : String) : JValue :=
  .jobj
    [ ("main_task", .jstr message)
    , ("needs_tools", .jbool false)
    , ("subtasks", .jarr [])
    , ("constraints", .jarr [])
    , ("needs_clarification", .jbool false) ]

/-- AssistantAgent._analyze_request (assistant.py lines 145 to 196).
The record_message call sits outside the try around json.loads, so a
backend failure propagates while a parse failure falls back to the
default classification. -/
def _analyze_request (env : Env) (message : String) (c : RunState) :
    Except String JValue × RunState :=
  match env.agent with
  | none => (.ok (defaultAnalysis message), c)
  | some b =>
    match record_message b c with
    | (.error e, c1) => (.error e, c1)
    | (.ok r, c1) =>
      match r.parsed with
      | some v => (.ok v, c1)
      | none => (.ok (defaultAnalysis message), c1)

/-- AssistantAgent._plan_tool_usage (assistant.py lines 198 to 244).
Returns the empty plan when no tools or no backend are configured;
otherwise asks the backend and extracts the tools field, where the
bare except catches both json.loads failures and the .get attribute
failure on a non-dict parse result. -/
def _plan_tool_usage (env : Env) (c : RunState) : Except String JValue × RunState :=
  if env.tools.isEmpty || env.agent.isNone then (.ok (.jarr []), c)
  else
    match env.agent with
    | none => (.ok (.jarr []), c)
    | some b =>
      match record_message b c with
      | (.error e, c1) => (.error e, c1)
      | (.ok r, c1) =>
        match r.parsed with
        | some (.jobj fields) => (.ok ((jLookup fields "tools").getD (.jarr [])), c1)
        | _ => (.ok (.jarr []), c1)

/-- The Python comparison of a registry name (a str) with the
requested tool name value: equal only when the value is an equal str. -/
def nameMatches (tname : String) : JValue → Bool
  | .jstr s => tname == s
  | _ => false

/-- BaseAgent._execute_tool (base.py lines 118 to 149): first tool of
the list whose name equals the requested name; absence raises a
ValueError that the same except turns into a failure result, and a
capability failure is caught and stringified. -/
def _execute_tool (tools : List ToolSpec) (tool_name : JValue)
    (kwargs : List (String × JValue)) : ToolResult :=
  match tools.find? (fun t => nameMatches t.name tool_name) with
  | none => { success := false, result := none
            , error := some ("Tool " ++ pyStr tool_name ++ " not found") }
  | some t =>
    match t.func kwargs with
    | .ok v => { success := true, result := some v, error := none }
    | .error e => { success := false, result := none, error := some e }

/-- The per-tool loop of process (assistant.py lines 84 to 95): for
each planned entry, evaluate its name and args, execute the tool (the
result list is discarded by the source), and yield one EXECUTING
update naming the tool. A failure while destructuring an entry stops
the loop and propagates. -/
def toolLoop (env : Env) : List JValue → RunState →
    List AgentUpdate × RunState × Option String
  | [], c => ([], c, none)
  | t :: rest, c =>
    match pyIndex t "name" with
    | .error e => ([], c, some e)
    | .ok nameVal =>
      match pyGet t "args" (.jobj []) with
      | .error e => ([], c, some e)
      | .ok argsVal =>
        match asKwargs argsVal with
        | .error e => ([], c, some e)
        | .ok kwargs =>
          let _discarded := _execute_tool env.tools nameVal kwargs
          let (u, c1) := _update_status c .executing
            (some ("Executed " ++ pyStr nameVal)) none
          match toolLoop env rest c1 with
          | (us, c2, r) => (u :: us, c2, r)

/-- The tail of process (assistant.py lines 97 to 132): the THINKING
update for response generation, the final record_message call on
self.agent (AttributeError when the agent is None), the two history
appends, the token count increment, and the DONE update. -/
def finishPhase (env : Env) (message : String) (c : RunState) :
    List AgentUpdate × RunState × Option String :=
  let (u4, c1) := _update_status c .thinking (some "Generating response") none
  match env.agent with
  | none => ([u4], c1, some "AttributeError: NoneType object has no attribute record_message")
  | some b =>
    match record_message b c1 with
    | (.error e, c2) => ([u4], c2, some e)
    | (.ok r, c2) =>
      let c3 := { c2 with
        chat_history := c2.chat_history ++ [Turn.mk "user" message c2.clock]
        clock := c2.clock + 1 }
      let c4 := { c3 with
        chat_history := c3.chat_history ++ [Turn.mk "assistant" r.message c3.clock]
        clock := c3.clock + 1 }
      let c5 := { c4 with token_count := c4.token_count + r.token_count }
      let (uD, c6) := _update_status c5 .done none none
      ([u4, uD], c6, none)

/-- The body of the try block of AssistantAgent.process (assistant.py
lines 57 to 132): returns the yielded updates, the final state, and
the exception when one escaped a step. -/
def processAux (env : Env) (message : String) (c : RunState) :
    List AgentUpdate × RunState × Option String :=
  let (u1, c1) := _update_status c .thinking (some "Understanding your request") none
  match _analyze_request env message c1 with
  | (.error e, c2) => ([u1], c2, some e)
  | (.ok analysis, c2) =>
    match pyGet analysis "needs_tools" (.jbool false) with
    | .error e => ([u1], c2, some e)
    | .ok nt =>
      if truthy nt then
        let (u2, c3) := _update_status c2 .thinking (some "Planning tool usage") none
        match _plan_tool_usage env c3 with
        | (.error e, c4) => ([u1, u2], c4, some e)
        | (.ok plan, c4) =>
          if truthy plan then
            match joinNames plan with
            | .error e => ([u1, u2], c4, some e)
            | .ok names =>
              let (u3, c5) := _update_status c4 .executing
                (some ("Using tools: " ++ names)) none
              match pyIter plan with
              | .error e => ([u1, u2, u3], c5, some e)
              | .ok items =>
                match toolLoop env items c5 with
                | (us, c6, some e) => ([u1, u2, u3] ++ us, c6, some e)
                | (us, c6, none) =>
                  match finishPhase env message c6 with
                  | (fs, c7, r) => ([u1, u2, u3] ++ us ++ fs, c7, r)
          else
            match finishPhase env message c4 with
            | (fs, c5, r) => ([u1, u2] ++ fs, c5, r)
      else
        match finishPhase env message c2 with
        | (fs, c3, r) => ([u1] ++ fs, c3, r)

/-- AssistantAgent.process (assistant.py lines 47 to 143): records
self.start_time, runs the body, and on any exception yields one
terminal ERROR update with the message of the exception. -/
def process (env : Env) (message : String) (c : RunState) :
    List AgentUpdate × RunState :=
  let c0 := { c with start_time := c.clock, clock := c.clock + 1 }
  match processAux env message c0 with
  | (us, c1, none) => (us, c1)
  | (us, c1, some e) =>
    let (uE, c2) := _update_status c1 .error none
      (some ("Error processing message: " ++ e))
    (us ++ [uE], c2)

/-- BaseAgent.get_result (base.py lines 166 to 180). -/
def get_result (c : RunState) : AgentResult :=
  { success := c.status == .done
  , message := match c.chat_history.getLast? with
               | some t => t.content
               | none => ""
  , chat_history := c.chat_history
  , token_count := c.token_count
  , execution_time := 0
  , error := if c.status == .error then some "Execution failed" else none }

/-- A fresh agent state, as BaseAgent.__init__ leaves it: status IDLE,
empty chat history, zero token count. -/
def initialState : RunState :=
  { status := .idle, chat_history := [], token_count := 0
  , calls := 0, clock := 0, start_time := 0 }

/-- Placeholder update used only as the default of Option.getD when
naming the concrete last update of a fully evaluated run. -/
def dummyUpdate : AgentUpdate :=
  { type := "", timestamp := 0, agent_role := "", status := .idle
  , task := none, elapsed := 0, error := none }

/-- A backend whose every reply parses to an empty JSON object and
costs 3 tokens. -/
def okBackend : Backend := fun _ =>
  .ok { message := "Hello there", parsed := some (.jobj []), token_count := 3 }

def envOk : Env := { agent := some okBackend, tools := [] }

/-- An agent whose CAMEL collaborator is absent (self.agent is None). -/
def envNoAgent : Env := { agent := none, tools := [] }

/-- The last update of the errored run of envNoAgent. -/
def errLastUpdate : AgentUpdate :=
  ((process envNoAgent "hi" initialState).1.getLast?).getD dummyUpdate

/-- The last update of the successful run of envOk. -/
def doneLastUpdate : AgentUpdate :=
  ((process envOk "Hello" initialState).1.getLast?).getD dummyUpdate

def replyCost5 : ModelReply :=
  { message := "analysis", parsed := some (.jobj []), token_count := 5 }

def replyCost3 : ModelReply :=
  { message := "final reply", parsed := some (.jobj []), token_count := 3 }

/-- A backend whose analyzer call reports cost 5 and whose later calls
report cost 3. -/
def twoCostBackend : Backend := fun n =>
  if n == 0 then .ok replyCost5 else .ok replyCost3

def envTwoCost : Env := { agent := some twoCostBackend, tools := [] }

/-- A reply whose text is valid JSON but parses to a JSON array, not
the object shape the analyzer prompt requests. -/
def malformedReply : ModelReply :=
  { message := "[1]", parsed := some (.jarr [.jnum 1]), token_count := 1 }

def malformedBackend : Backend := fun n =>
  if n == 0 then .ok malformedReply else .ok replyCost3

def envMalformed : Env := { agent := some malformedBackend, tools := [] }

/-- A reply whose text is not parsable as JSON at all. -/
def unparsableReply : ModelReply :=
  { message := "not json", parsed := none, token_count := 1 }

def searchTool : ToolSpec :=
  { name := "search", description := "find things", func := fun _ => .ok (.jstr "found") }

def brokenTool : ToolSpec :=
  { name := "broken", description := "always fails", func := fun _ => .error "boom" }

def dupA : ToolSpec :=
  { name := "dup", description := "first", func := fun _ => .ok (.jstr "A") }

def dupB : ToolSpec :=
  { name := "dup", description := "second", func := fun _ => .ok (.jstr "B") }

/-- A three-entry tool plan: one registered tool that succeeds, one
registered tool whose capability fails, one unregistered name. -/
def plannedEntries : List JValue :=
  [ .jobj [("name", .jstr "search"), ("args", .jobj [("query", .jstr "x")])]
  , .jobj [("name", .jstr "broken")]
  , .jobj [("name", .jstr "missing")] ]

def analysisNeedsTools : ModelReply :=
  { message := "a", parsed := some (.jobj [("needs_tools", .jbool true)]), token_count := 1 }

def planReply : ModelReply :=
  { message := "p", parsed := some (.jobj [("tools", .jarr plannedEntries)]), token_count := 1 }

def finalReply : ModelReply :=
  { message := "done", parsed := some (.jobj []), token_count := 4 }

/-- A backend that asks for tools, plans plannedEntries, then replies. -/
def planBackend : Backend := fun n =>
  if n == 0 then .ok analysisNeedsTools
  else if n == 1 then .ok planReply
  else .ok finalReply

def envPlan : Env := { agent := some planBackend, tools := [searchTool, brokenTool] }

/-- A backend whose analyzer reply is unparsable and whose later calls
succeed. -/
def unparsableBackend : Backend := fun n =>
  if n == 0 then .ok unparsableReply else .ok finalReply

def envUnparsable : Env := { agent := some unparsableBackend, tools := [] }

/-- Well-formed planned tool entry: a JSON object whose name field is a
string and whose args field, when present, is a JSON object. -/
def wfToolEntry : JValue → Bool
  | .jobj fields =>
    (match jLookup fields "name" with
     | some (.jstr _) => true
     | _ => false)
    &&
    (match jLookup fields "args" with
     | none => true
     | some (.jobj _) => true
     | _ => false)
  | _ => false

/-- The name of a well-formed planned tool entry. -/
def entryName (t : JValue) : String :=
  match pyIndex t "name" with
  | .ok (.jstr s) => s
  | _ => ""

theorem analyze_state (env : Env) (message : String) (c : RunState) :
    (_analyze_request env message c).2.status = c.status ∧
    (_analyze_request env message c).2.chat_history = c.chat_history ∧
    (_analyze_request env message c).2.token_count = c.token_count ∧
    (_analyze_request env message c).2.clock = c.clock ∧
    (_analyze_request env message c).2.start_time = c.start_time := by
  unfold _analyze_request record_message
  cases h : env.agent with
  | none => simp [h]
  | some b =>
    cases hb : b c.calls with
    | error e => simp [h, hb]
    | ok r => cases hp : r.parsed <;> simp [h, hb, hp]

theorem plan_state (env : Env) (c : RunState) :
    (_plan_tool_usage env c).2.status = c.status ∧
    (_plan_tool_usage env c).2.chat_history = c.chat_history ∧
    (_plan_tool_usage env c).2.token_count = c.token_count ∧
    (_plan_tool_usage env c).2.clock = c.clock ∧
    (_plan_tool_usage env c).2.start_time = c.start_time := by
  unfold _plan_tool_usage record_message
  by_cases h : (env.tools.isEmpty || env.agent.isNone) = true
  · simp [h]
  · simp only [h]
    cases hA : env.agent with
    | none => simp [hA]
    | some b =>
      cases hb : b c.calls with
      | error e => simp [hA, hb]
      | ok r =>
        cases hp : r.parsed with
        | none => simp [hA, hb, hp]
        | some v => cases v <;> simp [hA, hb, hp]

theorem toolLoop_state (env : Env) : ∀ (items : List JValue) (c : RunState),
    (toolLoop env items c).2.1.status = c.status ∧
    (toolLoop env items c).2.1.chat_history = c.chat_history ∧
    (toolLoop env items c).2.1.token_count = c.token_count ∧
    (toolLoop env items c).2.1.calls = c.calls ∧
    (toolLoop env items c).2.1.start_time = c.start_time ∧
    ∀ u ∈ (toolLoop env items c).1, u.status = .executing := by
  intro items
  induction items with
  | nil => intro c; simp [toolLoop]
  | cons t rest ih =>
    intro c
    unfold toolLoop
    cases hn : pyIndex t "name" with
    | error e => simp [hn]
    | ok nameVal =>
      cases ha : pyGet t "args" (.jobj []) with
      | error e => simp [hn, ha]
      | ok argsVal =>
        cases hk : asKwargs argsVal with
        | error e => simp [hn, ha, hk]
        | ok kwargs =>
          simp only [hn, ha, hk, _update_status]
          rcases hrec : toolLoop env rest { c with clock := c.clock + 1 } with ⟨us2, c2, r2⟩
          have hr := ih { c with clock := c.clock + 1 }
          rw [hrec] at hr
          simp only [hrec]
          simp_all

theorem finishPhase_some (env : Env) (message : String) (c : RunState) (e : String)
    (h : (finishPhase env message c).2.2 = some e) :
    (finishPhase env message c).2.1.status = c.status ∧
    (finishPhase env message c).2.1.chat_history = c.chat_history ∧
    (finishPhase env message c).2.1.token_count = c.token_count ∧
    ∀ u ∈ (finishPhase env message c).1, u.status = .thinking := by
  unfold finishPhase at h ⊢
  simp only [_update_status, record_message] at h ⊢
  cases hA : env.agent with
  | none => simp [hA]
  | some b =>
    cases hb : b c.calls with
    | error e2 => simp [hA, hb]
    | ok r => simp [hA, hb] at h

theorem finishPhase_none (env : Env) (message : String) (c : RunState)
    (h : (finishPhase env message c).2.2 = none) :
    ∃ b r, env.agent = some b ∧ b c.calls = .ok r ∧
      (finishPhase env message c).2.1.status = c.status ∧
      (finishPhase env message c).2.1.calls = c.calls + 1 ∧
      (finishPhase env message c).2.1.chat_history
        = c.chat_history
          ++ [Turn.mk "user" message (c.clock + 1), Turn.mk "assistant" r.message (c.clock + 2)] ∧
      (finishPhase env message c).2.1.token_count = c.token_count + r.token_count ∧
      ∃ u4 uD, (finishPhase env message c).1 = [u4, uD] ∧
        u4.status = .thinking ∧ uD.status = .done ∧ uD.task = none ∧ uD.error = none := by
  unfold finishPhase at h ⊢
  simp only [_update_status, record_message] at h ⊢
  cases hA : env.agent with
  | none => simp [hA] at h
  | some b =>
    cases hb : b c.calls with
    | error e2 => simp [hA, hb] at h
    | ok r =>
      refine ⟨b, r, by simp [hA], by simp [hb], ?_⟩
      simp [hA, hb]
      exact ⟨_, _, ⟨rfl, rfl⟩, rfl, rfl, rfl, rfl⟩

theorem processAux_some (env : Env) (message : String) (c : RunState) (e : String)
    (h : (processAux env message c).2.2 = some e) :
    (processAux env message c).2.1.status = c.status ∧
    (processAux env message c).2.1.chat_history = c.chat_history ∧
    (processAux env message c).2.1.token_count = c.token_count := by
  unfold processAux at h ⊢
  simp only [_update_status] at h ⊢
  rcases hA : _analyze_request env message { c with clock := c.clock + 1 } with ⟨ra, cA⟩
  have hAs := analyze_state env message { c with clock := c.clock + 1 }
  rw [hA] at hAs
  simp only at hAs
  simp only [hA] at h ⊢
  cases ra with
  | error e2 => simp_all
  | ok analysis =>
    cases hG : pyGet analysis "needs_tools" (.jbool false) with
    | error e2 => simp_all
    | ok nt =>
      simp only [hG] at h ⊢
      cases hT : truthy nt with
      | false =>
        simp only [hT, Bool.false_eq_true, if_false] at h ⊢
        rcases hF : finishPhase env message cA with ⟨fs, cF, rF⟩
        simp only [hF] at h ⊢
        have hFe : (finishPhase env message cA).2.2 = some e := by rw [hF]; exact h
        have hFs := finishPhase_some env message cA e hFe
        rw [hF] at hFs
        simp only at hFs
        exact ⟨by rw [hFs.1, hAs.1], by rw [hFs.2.1, hAs.2.1],
               by rw [hFs.2.2.1, hAs.2.2.1]⟩
      | true =>
        simp only [hT, if_true] at h ⊢
        rcases hP : _plan_tool_usage env { cA with clock := cA.clock + 1 } with ⟨rp, cP⟩
        have hPs := plan_state env { cA with clock := cA.clock + 1 }
        rw [hP] at hPs
        simp only at hPs
        simp only [hP] at h ⊢
        cases rp with
        | error e2 =>
          simp only at h ⊢
          refine ⟨?_, ?_, ?_⟩ <;> simp_all
        | ok plan =>
          simp only at h ⊢
          cases hTP : truthy plan with
          | false =>
            simp only [hTP, Bool.false_eq_true, if_false] at h ⊢
            rcases hF : finishPhase env message cP with ⟨fs, cF, rF⟩
            simp only [hF] at h ⊢
            have hFe : (finishPhase env message cP).2.2 = some e := by rw [hF]; exact h
            have hFs := finishPhase_some env message cP e hFe
            rw [hF] at hFs
            simp only at hFs
            refine ⟨?_, ?_, ?_⟩ <;> simp_all
          | true =>
            simp only [hTP, if_true] at h ⊢
            cases hJ : joinNames plan with
            | error e2 => simp_all
            | ok names =>
              simp only [hJ] at h ⊢
              cases hI : pyIter plan with
              | error e2 => simp_all
              | ok items =>
                simp only [hI] at h ⊢
                rcases hL : toolLoop env items { cP with clock := cP.clock + 1 }
                  with ⟨usL, cL, rL⟩
                have hLs := toolLoop_state env items { cP with clock := cP.clock + 1 }
                rw [hL] at hLs
                simp only at hLs
                simp only [hL] at h ⊢
                cases rL with
                | some e2 => simp_all
                | none =>
                  simp only at h ⊢
                  rcases hF : finishPhase env message cL with ⟨fs, cF, rF⟩
                  simp only [hF] at h ⊢
                  have hFe : (finishPhase env message cL).2.2 = some e := by
                    rw [hF]; exact h
                  have hFs := finishPhase_some env message cL e hFe
                  rw [hF] at hFs
                  simp only at hFs
                  refine ⟨?_, ?_, ?_⟩ <;> simp_all

theorem processAux_none (env : Env) (message : String) (c : RunState)
    (h : (processAux env message c).2.2 = none) :
    (processAux env message c).2.1.status = c.status ∧
    ∃ b r, env.agent = some b ∧ b ((processAux env message c).2.1.calls - 1) = .ok r ∧
      (∃ t1 t2, (processAux env message c).2.1.chat_history
          = c.chat_history ++ [Turn.mk "user" message t1, Turn.mk "assistant" r.message t2]) ∧
      (processAux env message c).2.1.token_count = c.token_count + r.token_count ∧
      ∃ uD, (processAux env message c).1.getLast? = some uD ∧
        uD.status = .done ∧ uD.task = none ∧ uD.error = none := by
  unfold processAux at h ⊢
  simp only [_update_status] at h ⊢
  rcases hA : _analyze_request env message { c with clock := c.clock + 1 } with ⟨ra, cA⟩
  have hAs := analyze_state env message { c with clock := c.clock + 1 }
  rw [hA] at hAs
  simp only at hAs
  simp only [hA] at h ⊢
  cases ra with
  | error e2 => simp_all
  | ok analysis =>
    cases hG : pyGet analysis "needs_tools" (.jbool false) with
    | error e2 => simp_all
    | ok nt =>
      simp only [hG] at h ⊢
      cases hT : truthy nt with
      | false =>
        simp only [hT, Bool.false_eq_true, if_false] at h ⊢
        rcases hF : finishPhase env message cA with ⟨fs, cF, rF⟩
        simp only [hF] at h ⊢
        have hFn := finishPhase_none env message cA (by rw [hF]; exact h)
        rw [hF] at hFn
        simp only at hFn
        obtain ⟨b, r, hAg, hbc, hst, hcalls, hch, htk, u4, uD, hfs, hu4, huD, huDt, huDe⟩ := hFn
        refine ⟨by simp_all, b, r, hAg, ?_, ⟨cA.clock + 1, cA.clock + 2, ?_⟩, ?_,
                ⟨uD, ?_, huD, huDt, huDe⟩⟩
        · rw [hcalls]; simpa using hbc
        · rw [hch]; simp_all
        · rw [htk]; simp_all
        · rw [hfs]
          rw [List.getLast?_append_of_ne_nil _ (by simp)]
          rfl
      | true =>
        simp only [hT, if_true] at h ⊢
        rcases hP : _plan_tool_usage env { cA with clock := cA.clock + 1 } with ⟨rp, cP⟩
        have hPs := plan_state env { cA with clock := cA.clock + 1 }
        rw [hP] at hPs
        simp only at hPs
        simp only [hP] at h ⊢
        cases rp with
        | error e2 => simp_all
        | ok plan =>
          simp only at h ⊢
          cases hTP : truthy plan with
          | false =>
            simp only [hTP, Bool.false_eq_true, if_false] at h ⊢
            rcases hF : finishPhase env message cP with ⟨fs, cF, rF⟩
            simp only [hF] at h ⊢
            have hFn := finishPhase_none env message cP (by rw [hF]; exact h)
            rw [hF] at hFn
            simp only at hFn
            obtain ⟨b, r, hAg, hbc, hst, hcalls, hch, htk, u4, uD, hfs, hu4, huD, huDt, huDe⟩ := hFn
            refine ⟨by simp_all, b, r, hAg, ?_, ⟨cP.clock + 1, cP.clock + 2, ?_⟩, ?_,
                    ⟨uD, ?_, huD, huDt, huDe⟩⟩
            · rw [hcalls]; simpa using hbc
            · rw [hch]; simp_all
            · rw [htk]; simp_all
            · rw [hfs]
              rw [List.getLast?_append_of_ne_nil _ (by simp)]
              rfl
          | true =>
            simp only [hTP, if_true] at h ⊢
            cases hJ : joinNames plan with
            | error e2 => simp_all
            | ok names =>
              simp only [hJ] at h ⊢
              cases hI : pyIter plan with
              | error e2 => simp_all
              | ok items =>
                simp only [hI] at h ⊢
                rcases hL : toolLoop env items { cP with clock := cP.clock + 1 }
                  with ⟨usL, cL, rL⟩
                have hLs := toolLoop_state env items { cP with clock := cP.clock + 1 }
                rw [hL] at hLs
                simp only at hLs
                simp only [hL] at h ⊢
                cases rL with
                | some e2 => simp_all
                | none =>
                  simp only at h ⊢
                  rcases hF : finishPhase env message cL with ⟨fs, cF, rF⟩
                  simp only [hF] at h ⊢
                  have hFn := finishPhase_none env message cL (by rw [hF]; exact h)
                  rw [hF] at hFn
                  simp only at hFn
                  obtain ⟨b, r, hAg, hbc, hst, hcalls, hch, htk, u4, uD,
                          hfs, hu4, huD, huDt, huDe⟩ := hFn
                  refine ⟨by simp_all, b, r, hAg, ?_, ⟨cL.clock + 1, cL.clock + 2, ?_⟩, ?_,
                          ⟨uD, ?_, huD, huDt, huDe⟩⟩
                  · rw [hcalls]; simpa using hbc
                  · rw [hch]; simp_all
                  · rw [htk]; simp_all
                  · rw [hfs]
                    rw [List.getLast?_append_of_ne_nil _ (by simp)]
                    rfl

theorem process_cases (env : Env) (message : String) (c : RunState) :
    (∃ uD, (process env message c).1.getLast? = some uD ∧ uD.status = .done ∧
       (process env message c).2.status = c.status ∧
       ∃ b r, env.agent = some b ∧ b ((process env message c).2.calls - 1) = .ok r ∧
         (∃ t1 t2, (process env message c).2.chat_history
            = c.chat_history ++ [Turn.mk "user" message t1, Turn.mk "assistant" r.message t2]) ∧
         (process env message c).2.token_count = c.token_count + r.token_count) ∨
    (∃ uE, (process env message c).1.getLast? = some uE ∧ uE.status = .error ∧
       (process env message c).2.status = c.status ∧
       (process env message c).2.chat_history = c.chat_history ∧
       (process env message c).2.token_count = c.token_count) := by
  unfold process
  simp only [_update_status]
  rcases hP : processAux env message { c with start_time := c.clock, clock := c.clock + 1 }
    with ⟨us, c2, r⟩
  cases r with
  | none =>
    left
    have hN := processAux_none env message _ (by rw [hP])
    rw [hP] at hN
    simp only at hN
    obtain ⟨hstat, b, rr, hag, hbc, hch, htk, uD, hlastD, huD, huDt, huDe⟩ := hN
    exact ⟨uD, hlastD, huD, hstat, b, rr, hag, hbc, by simpa using hch, by simpa using htk⟩
  | some e =>
    right
    have hS := processAux_some env message _ e (by rw [hP])
    rw [hP] at hS
    simp only at hS
    refine ⟨_, List.getLast?_concat _, rfl, ?_, ?_, ?_⟩ <;> simp_all

/-- Claim C1: for every non-empty input message, process yields at least
one status update, the last yielded update has status DONE or ERROR and
never any other status, and no exception propagates to the caller (the
embedded process is total: the exception of a failed step is rendered as
the terminal ERROR update). -/
theorem c1_process_terminal (env : Env) (message : String) (c : RunState)
    (hmsg : message ≠ "") :
    (process env message c).1 ≠ [] ∧
    ∃ u, (process env message c).1.getLast? = some u ∧
      (u.status = .done ∨ u.status = .error) := by
  rcases process_cases env message c with ⟨uD, hl, hs, -⟩ | ⟨uE, hl, hs, -⟩
  · refine ⟨?_, uD, hl, Or.inl hs⟩
    intro hnil
    rw [hnil] at hl
    simp at hl
  · refine ⟨?_, uE, hl, Or.inr hs⟩
    intro hnil
    rw [hnil] at hl
    simp at hl

/-- Claim C3: for every run of process whose last yielded update has
status ERROR, the chat history after the run equals the chat history
from before the run: no partial turn is appended on a failure at any
step. -/
theorem c3_error_run_preserves_history (env : Env) (message : String) (c : RunState)
    (u : AgentUpdate)
    (hlast : (process env message c).1.getLast? = some u)
    (herr : u.status = .error) :
    (process env message c).2.chat_history = c.chat_history := by
  rcases process_cases env message c with ⟨uD, hl, hs, -⟩ | ⟨uE, hl, hs, -, hch, -⟩
  · rw [hl] at hlast
    injection hlast with hEq
    subst hEq
    rw [hs] at herr
    cases herr
  · exact hch

/-- Claim C4: for every run of process whose last yielded update has
status DONE, the chat history grows by exactly two turns, a user turn
carrying the input message followed by an assistant turn carrying the
reply of the model, in that order, and token_count increases by exactly
the reported token cost of that reply (the reply of the final
record_message call of the run). -/
theorem c4_done_run_appends_two_turns (env : Env) (message : String) (c : RunState)
    (u : AgentUpdate)
    (hlast : (process env message c).1.getLast? = some u)
    (hdone : u.status = .done) :
    ∃ b r, env.agent = some b ∧ b ((process env message c).2.calls - 1) = .ok r ∧
      (∃ t1 t2, (process env message c).2.chat_history
        = c.chat_history ++ [Turn.mk "user" message t1, Turn.mk "assistant" r.message t2]) ∧
      (process env message c).2.token_count = c.token_count + r.token_count := by
  rcases process_cases env message c with ⟨uD, hl, hs, -, hrest⟩ | ⟨uE, hl, hs, -⟩
  · exact hrest
  · rw [hl] at hlast
    injection hlast with hEq
    subst hEq
    rw [hs] at hdone
    cases hdone

/-- Claim C6 as amended: across one run, token_count never decreases
and is never reset; it is incremented only by the reported token cost
of the final response synthesis call — on an errored run it is
unchanged, and on a DONE run it increases by exactly the cost of the
final reply. The costs of the analyzer and planner calls are not
added. -/
theorem c6_token_count_final_call_only (env : Env) (message : String) (c : RunState) :
    c.token_count ≤ (process env message c).2.token_count ∧
    (∀ u, (process env message c).1.getLast? = some u → u.status = .error →
       (process env message c).2.token_count = c.token_count) ∧
    (∀ u, (process env message c).1.getLast? = some u → u.status = .done →
       ∃ b r, env.agent = some b ∧ b ((process env message c).2.calls - 1) = .ok r ∧
         (process env message c).2.token_count = c.token_count + r.token_count) := by
  rcases process_cases env message c
    with ⟨uD, hl, hs, -, b, r, hag, hbc, -, htk⟩ | ⟨uE, hl, hs, -, -, htk⟩
  · refine ⟨by rw [htk]; exact Nat.le_add_right c.token_count r.token_count, ?_, ?_⟩
    · intro u hu he
      rw [hl] at hu
      injection hu with hEq
      subst hEq
      rw [hs] at he
      cases he
    · intro u hu hd
      exact ⟨b, r, hag, hbc, htk⟩
  · refine ⟨le_of_eq htk.symm, fun u hu he => htk, ?_⟩
    intro u hu hd
    rw [hl] at hu
    injection hu with hEq
    subst hEq
    rw [hs] at hd
    cases hd

/-- Claim C8: _analyze_request returns the exact default classification
(main_task = message, needs_tools = false, empty subtasks and
constraints, needs_clarification = false) whenever the backend
collaborator is absent or the reply of the model fails to parse, and in
those cases it does not raise (the result is the ok case). -/
theorem c8_analyze_request_defaults (env : Env) (message : String) (c : RunState) :
    (env.agent = none → _analyze_request env message c = (.ok (defaultAnalysis message), c)) ∧
    (∀ b r, env.agent = some b → b c.calls = .ok r → r.parsed = none →
       _analyze_request env message c
         = (.ok (defaultAnalysis message), { c with calls := c.calls + 1 })) := by
  constructor
  · intro h
    simp [_analyze_request, h]
  · intro b r hA hb hp
    simp [_analyze_request, record_message, hA, hb, hp]

/-- Claim C9: _execute_tool always returns a result and never raises:
an unregistered name gives a failure result with a descriptive error
text, a capability failure gives a failure result carrying the
stringified error, and a capability success wraps the payload with
success = true and error = none. -/
theorem c9_execute_tool_total (tools : List ToolSpec) (name : String)
    (kwargs : List (String × JValue)) :
    (tools.find? (fun t => nameMatches t.name (.jstr name)) = none →
       _execute_tool tools (.jstr name) kwargs
         = { success := false, result := none
           , error := some ("Tool " ++ name ++ " not found") }) ∧
    (∀ t, tools.find? (fun t2 => nameMatches t2.name (.jstr name)) = some t →
       (∀ v, t.func kwargs = .ok v →
          _execute_tool tools (.jstr name) kwargs
            = { success := true, result := some v, error := none }) ∧
       (∀ e, t.func kwargs = .error e →
          _execute_tool tools (.jstr name) kwargs
            = { success := false, result := none, error := some e })) := by
  constructor
  · intro h
    simp [_execute_tool, h, pyStr]
  · intro t ht
    constructor
    · intro v hv
      simp [_execute_tool, ht, hv]
    · intro e he
      simp [_execute_tool, ht, he]

theorem find_first_by_name (name : String) (t : ToolSpec) (post : List ToolSpec) :
    ∀ pre : List ToolSpec, t.name = name → (∀ t2 ∈ pre, t2.name ≠ name) →
    (pre ++ t :: post).find? (fun t2 => nameMatches t2.name (.jstr name)) = some t := by
  intro pre
  induction pre with
  | nil =>
    intro hname hpre
    have ht : nameMatches t.name (.jstr name) = true := by
      simp [nameMatches, hname]
    simp [List.find?, ht]
  | cons p ps ih =>
    intro hname hpre
    have hp : nameMatches p.name (.jstr name) = false := by
      simp only [nameMatches]
      exact beq_eq_false_iff_ne.mpr (hpre p (by simp))
    simp only [List.cons_append, List.find?, hp]
    exact ih hname (fun t2 h2 => hpre t2 (by simp [h2]))

/-- Claim C10: when several registered tools share the requested name,
_execute_tool invokes the capability of the first matching tool in
registration order: with no match before t in the list, the result of
_execute_tool is determined by the capability of t, regardless of any
later tool of the same name. -/
theorem c10_first_registered_match_wins (pre post : List ToolSpec) (t : ToolSpec)
    (name : String) (kwargs : List (String × JValue))
    (hname : t.name = name) (hpre : ∀ t2 ∈ pre, t2.name ≠ name) :
    (∀ v, t.func kwargs = .ok v →
       _execute_tool (pre ++ t :: post) (.jstr name) kwargs
         = { success := true, result := some v, error := none }) ∧
    (∀ e, t.func kwargs = .error e →
       _execute_tool (pre ++ t :: post) (.jstr name) kwargs
         = { success := false, result := none, error := some e }) := by
  have hfind := find_first_by_name name t post pre hname hpre
  constructor
  · intro v hv
    simp [_execute_tool, hfind, hv]
  · intro e he
    simp [_execute_tool, hfind, he]

theorem wf_entry_shape (t : JValue) (h : wfToolEntry t = true) :
    ∃ fields s, t = .jobj fields ∧ jLookup fields "name" = some (.jstr s) ∧
      (jLookup fields "args" = none ∨ ∃ af, jLookup fields "args" = some (.jobj af)) := by
  unfold wfToolEntry at h
  split at h
  next fields =>
    rw [Bool.and_eq_true] at h
    obtain ⟨hn, ha⟩ := h
    split at hn
    next s hln =>
      refine ⟨fields, s, rfl, hln, ?_⟩
      split at ha
      next hla => exact Or.inl hla
      next af hla => exact Or.inr ⟨af, hla⟩
      next => cases ha
    next => cases hn
  next => cases h

theorem entryName_of_wf (fields : List (String × JValue)) (s : String)
    (hln : jLookup fields "name" = some (.jstr s)) :
    entryName (.jobj fields) = s := by
  simp [entryName, pyIndex, hln]

theorem collectNames_wf : ∀ items : List JValue,
    (∀ t ∈ items, wfToolEntry t = true) →
    collectNames items = .ok (items.map entryName) := by
  intro items
  induction items with
  | nil => intro h; simp [collectNames]
  | cons t rest ih =>
    intro h
    obtain ⟨fields, s, rfl, hln, -⟩ := wf_entry_shape t (h t (by simp))
    have hrec := ih (fun x hx => h x (by simp [hx]))
    simp [collectNames, pyIndex, hln, hrec, entryName_of_wf fields s hln]

theorem joinNames_wf (ts : List JValue) (h : ∀ t ∈ ts, wfToolEntry t = true) :
    joinNames (.jarr ts) = .ok (String.intercalate ", " (ts.map entryName)) := by
  simp [joinNames, pyIter, collectNames_wf ts h]

theorem truthy_jarr_of_ne_nil (ts : List JValue) (h : ts ≠ []) :
    truthy (.jarr ts) = true := by
  cases ts with
  | nil => exact absurd rfl h
  | cons t rest => simp [truthy]

theorem toolLoop_wf (env : Env) : ∀ (items : List JValue) (c : RunState),
    (∀ t ∈ items, wfToolEntry t = true) →
    (toolLoop env items c).2.2 = none ∧
    (toolLoop env items c).1.map (fun u => u.task)
      = items.map (fun t => some ("Executed " ++ entryName t)) ∧
    (∀ u ∈ (toolLoop env items c).1, u.status = .executing) := by
  intro items
  induction items with
  | nil => intro c h; simp [toolLoop]
  | cons t rest ih =>
    intro c h
    obtain ⟨fields, s, rfl, hln, hargs⟩ := wf_entry_shape t (h t (by simp))
    have hrec := ih { c with clock := c.clock + 1 } (fun x hx => h x (by simp [hx]))
    have hx : pyIndex (.jobj fields) "name" = .ok (.jstr s) := by simp [pyIndex, hln]
    have hkw : ∃ kw, pyGet (.jobj fields) "args" (.jobj []) = .ok (.jobj kw) := by
      rcases hargs with hla | ⟨af, hla⟩
      · exact ⟨[], by simp [pyGet, hla]⟩
      · exact ⟨af, by simp [pyGet, hla]⟩
    obtain ⟨kw, hkw⟩ := hkw
    rcases hL : toolLoop env rest { c with clock := c.clock + 1 } with ⟨usL, cL, rL⟩
    rw [hL] at hrec
    simp only at hrec
    unfold toolLoop
    simp [hx, hkw, asKwargs, _update_status, hL, hrec.1, hrec.2.1, pyStr,
          entryName_of_wf fields s hln]
    exact fun u hu => hrec.2.2 u hu

theorem processAux_exec_filter (env : Env) (message : String) (c0 : RunState)
    (b : Backend) (r1 : ModelReply) (a nt : JValue) (r2 : ModelReply)
    (pf : List (String × JValue)) (ts : List JValue)
    (ha : env.agent = some b)
    (h0 : b c0.calls = .ok r1) (hp1 : r1.parsed = some a)
    (hnt : pyGet a "needs_tools" (.jbool false) = .ok nt) (htr : truthy nt = true)
    (htools : env.tools.isEmpty = false)
    (h1 : b (c0.calls + 1) = .ok r2) (hp2 : r2.parsed = some (.jobj pf))
    (htl : jLookup pf "tools" = some (.jarr ts)) (hne : ts ≠ [])
    (hwf : ∀ t ∈ ts, wfToolEntry t = true) :
    ((processAux env message c0).1.filter (fun u => u.status == .executing)).map
        (fun u => u.task)
      = some ("Using tools: " ++ String.intercalate ", " (ts.map entryName))
        :: ts.map (fun t => some ("Executed " ++ entryName t)) := by
  unfold processAux
  simp only [_update_status]
  generalize hs1 : ({ c0 with clock := c0.clock + 1 } : RunState) = s1
  have hs1c : s1.calls = c0.calls := by rw [← hs1]
  have hA : _analyze_request env message s1 = (.ok a, { s1 with calls := s1.calls + 1 }) := by
    simp [_analyze_request, record_message, ha, hs1c, h0, hp1]
  simp only [hA, hnt, htr, if_true]
  generalize hs3 : ({ { s1 with calls := s1.calls + 1 } with
      clock := ({ s1 with calls := s1.calls + 1 } : RunState).clock + 1 } : RunState) = s3
  have hs3c : s3.calls = c0.calls + 1 := by rw [← hs3]; simp [hs1c]
  have hP : _plan_tool_usage env s3 = (.ok (.jarr ts), { s3 with calls := s3.calls + 1 }) := by
    simp [_plan_tool_usage, record_message, htools, ha, hs3c, h1, hp2, htl]
  simp only [hP, truthy_jarr_of_ne_nil ts hne, if_true, joinNames_wf ts hwf]
  simp only [pyIter]
  generalize hs5 : ({ { s3 with calls := s3.calls + 1 } with
      clock := ({ s3 with calls := s3.calls + 1 } : RunState).clock + 1 } : RunState) = s5
  rcases hL : toolLoop env ts s5 with ⟨usL, cL, rL⟩
  have hW := toolLoop_wf env ts s5 hwf
  rw [hL] at hW
  simp only at hW
  obtain ⟨hrL, hmap, hst⟩ := hW
  subst hrL
  simp only [hL]
  rcases hF : finishPhase env message cL with ⟨fs, cF, rF⟩
  have hfilL : usL.filter (fun u => u.status == .executing) = usL :=
    List.filter_eq_self.mpr (fun u hu => by simp [hst u hu])
  cases rF with
  | none =>
    have hFn := finishPhase_none env message cL (by rw [hF])
    rw [hF] at hFn
    simp only at hFn
    obtain ⟨b2, r3, -, -, -, -, -, -, u4, uD, hfs, hu4, huD, -, -⟩ := hFn
    subst hfs
    have hb1 : (AgentStatus.thinking == AgentStatus.executing) = false := by decide
    have hb2 : (AgentStatus.done == AgentStatus.executing) = false := by decide
    have hb3 : (AgentStatus.executing == AgentStatus.executing) = true := by decide
    simp only [List.filter_append, List.filter, hu4, huD, hb1, hb2, hb3, hfilL]
    simp [hfilL, hu4, huD, hmap]
  | some e =>
    have hFs := finishPhase_some env message cL e (by rw [hF])
    rw [hF] at hFs
    simp only at hFs
    have hfilF : fs.filter (fun u => u.status == .executing) = [] :=
      List.filter_eq_nil_iff.mpr (fun u hu => by simp [hFs.2.2.2 u hu])
    have hb1 : (AgentStatus.thinking == AgentStatus.executing) = false := by decide
    have hb3 : (AgentStatus.executing == AgentStatus.executing) = true := by decide
    simp only [List.filter_append, List.filter, hb1, hb3, hfilL, hfilF]
    simp [hfilL, hfilF, hmap]

/-- Claim C5: for every non-empty well-formed tool plan returned by the
planner, the EXECUTING updates of the run are exactly the one banner
update naming all planned tools followed by exactly one Executed update
per planned tool, in exactly the order of the plan, and their count
equals the count of planned tools even when tool invocations fail (tool
capabilities and registry content are unconstrained here). -/
theorem c5_executing_updates_match_plan (env : Env) (message : String) (c : RunState)
    (b : Backend) (r1 : ModelReply) (a nt : JValue) (r2 : ModelReply)
    (pf : List (String × JValue)) (ts : List JValue)
    (ha : env.agent = some b)
    (h0 : b c.calls = .ok r1) (hp1 : r1.parsed = some a)
    (hnt : pyGet a "needs_tools" (.jbool false) = .ok nt) (htr : truthy nt = true)
    (htools : env.tools.isEmpty = false)
    (h1 : b (c.calls + 1) = .ok r2) (hp2 : r2.parsed = some (.jobj pf))
    (htl : jLookup pf "tools" = some (.jarr ts)) (hne : ts ≠ [])
    (hwf : ∀ t ∈ ts, wfToolEntry t = true) :
    ((process env message c).1.filter (fun u => u.status == .executing)).map
        (fun u => u.task)
      = some ("Using tools: " ++ String.intercalate ", " (ts.map entryName))
        :: ts.map (fun t => some ("Executed " ++ entryName t)) := by
  have hPA := processAux_exec_filter env message
    { c with start_time := c.clock, clock := c.clock + 1 } b r1 a nt r2 pf ts
    ha h0 hp1 hnt htr htools h1 hp2 htl hne hwf
  unfold process
  rcases hP : processAux env message { c with start_time := c.clock, clock := c.clock + 1 }
    with ⟨us, c2, r⟩
  rw [hP] at hPA
  simp only at hPA
  cases r with
  | none =>
    simp only [hP]
    simpa using hPA
  | some e =>
    simp only [hP, _update_status]
    have hbe : (AgentStatus.error == AgentStatus.executing) = false := by decide
    simp [List.filter_append, List.filter, hbe, hPA]

theorem processAux_analyze_unparsable (env : Env) (message : String) (c0 : RunState)
    (b : Backend) (r1 r2 : ModelReply)
    (ha : env.agent = some b)
    (h0 : b c0.calls = .ok r1) (hp1 : r1.parsed = none)
    (h1 : b (c0.calls + 1) = .ok r2) :
    (processAux env message c0).2.2 = none ∧
    ∃ u, (processAux env message c0).1.getLast? = some u ∧ u.status = .done := by
  unfold processAux
  simp only [_update_status]
  generalize hs1 : ({ c0 with clock := c0.clock + 1 } : RunState) = s1
  have hs1c : s1.calls = c0.calls := by rw [← hs1]
  have hA : _analyze_request env message s1
      = (.ok (defaultAnalysis message), { s1 with calls := s1.calls + 1 }) := by
    simp [_analyze_request, record_message, ha, hs1c, h0, hp1]
  have hG : pyGet (defaultAnalysis message) "needs_tools" (.jbool false)
      = .ok (.jbool false) := rfl
  have hT : truthy (.jbool false) = false := rfl
  simp only [hA, hG, hT, Bool.false_eq_true, if_false]
  generalize hs2 : ({ s1 with calls := s1.calls + 1 } : RunState) = s2
  have hs2c : s2.calls = c0.calls + 1 := by rw [← hs2]; simp [hs1c]
  rcases hF : finishPhase env message s2 with ⟨fs, cF, rF⟩
  have hFnone : (finishPhase env message s2).2.2 = none := by
    simp [finishPhase, _update_status, record_message, ha, hs2c, h1]
  rw [hF] at hFnone
  simp only at hFnone
  subst hFnone
  have hFn := finishPhase_none env message s2 (by rw [hF])
  rw [hF] at hFn
  simp only at hFn
  obtain ⟨b2, r3, -, -, -, -, -, -, u4, uD, hfs, -, huD, -, -⟩ := hFn
  subst hfs
  refine ⟨by simp [hF], uD, ?_, huD⟩
  simp only [hF]
  rw [List.getLast?_append_of_ne_nil _ (by simp)]
  rfl

theorem processAux_plan_unparsable (env : Env) (message : String) (c0 : RunState)
    (b : Backend) (r1 : ModelReply) (a nt : JValue) (r2 r3 : ModelReply)
    (ha : env.agent = some b)
    (h0 : b c0.calls = .ok r1) (hp1 : r1.parsed = some a)
    (hnt : pyGet a "needs_tools" (.jbool false) = .ok nt) (htr : truthy nt = true)
    (htools : env.tools.isEmpty = false)
    (h1 : b (c0.calls + 1) = .ok r2) (hp2 : r2.parsed = none)
    (h2 : b (c0.calls + 1 + 1) = .ok r3) :
    (processAux env message c0).2.2 = none ∧
    (processAux env message c0).1.filter (fun u => u.status == .executing) = [] ∧
    ∃ u, (processAux env message c0).1.getLast? = some u ∧ u.status = .done := by
  unfold processAux
  simp only [_update_status]
  generalize hs1 : ({ c0 with clock := c0.clock + 1 } : RunState) = s1
  have hs1c : s1.calls = c0.calls := by rw [← hs1]
  have hA : _analyze_request env message s1 = (.ok a, { s1 with calls := s1.calls + 1 }) := by
    simp [_analyze_request, record_message, ha, hs1c, h0, hp1]
  simp only [hA, hnt, htr, if_true]
  generalize hs3 : ({ { s1 with calls := s1.calls + 1 } with
      clock := ({ s1 with calls := s1.calls + 1 } : RunState).clock + 1 } : RunState) = s3
  have hs3c : s3.calls = c0.calls + 1 := by rw [← hs3]; simp [hs1c]
  have hP : _plan_tool_usage env s3 = (.ok (.jarr []), { s3 with calls := s3.calls + 1 }) := by
    simp [_plan_tool_usage, record_message, htools, ha, hs3c, h1, hp2]
  have hT : truthy (.jarr []) = false := rfl
  simp only [hP, hT, Bool.false_eq_true, if_false]
  generalize hs4 : ({ s3 with calls := s3.calls + 1 } : RunState) = s4
  have hs4c : s4.calls = c0.calls + 1 + 1 := by rw [← hs4]; simp [hs3c]
  rcases hF : finishPhase env message s4 with ⟨fs, cF, rF⟩
  have hFnone : (finishPhase env message s4).2.2 = none := by
    simp [finishPhase, _update_status, record_message, ha, hs4c, h2]
  rw [hF] at hFnone
  simp only at hFnone
  subst hFnone
  have hFn := finishPhase_none env message s4 (by rw [hF])
  rw [hF] at hFn
  simp only at hFn
  obtain ⟨b2, r4, -, -, -, -, -, -, u4, uD, hfs, hu4, huD, -, -⟩ := hFn
  subst hfs
  have hb1 : (AgentStatus.thinking == AgentStatus.executing) = false := by decide
  have hb2 : (AgentStatus.done == AgentStatus.executing) = false := by decide
  refine ⟨by simp [hF], ?_, uD, ?_, huD⟩
  · simp only [hF, List.filter_append, List.filter, hu4, huD, hb1, hb2]
  · simp only [hF]
    rw [List.getLast?_append_of_ne_nil _ (by simp)]
    rfl

/-- Claim C7 as amended: for every backend reply to the analyzer or the
planner whose text is not parsable as JSON, the component recovers
locally with its safe default (the pass-through default classification
for the analyzer, the empty plan for the planner), and the run
continues to completion with no error from the parse failure surfaced:
when the remaining backend calls succeed, the run terminates with DONE
(and, for an unparsable planner reply, attempts no tool). -/
theorem c7_unparsable_reply_degrades :
    (∀ (env : Env) (message : String) (c : RunState) (b : Backend) (r : ModelReply),
       env.agent = some b → b c.calls = .ok r → r.parsed = none →
       _analyze_request env message c
         = (.ok (defaultAnalysis message), { c with calls := c.calls + 1 })) ∧
    (∀ (env : Env) (c : RunState) (b : Backend) (r : ModelReply),
       env.agent = some b → env.tools.isEmpty = false → b c.calls = .ok r →
       r.parsed = none →
       _plan_tool_usage env c = (.ok (.jarr []), { c with calls := c.calls + 1 })) ∧
    (∀ (env : Env) (message : String) (c : RunState) (b : Backend) (r1 r2 : ModelReply),
       env.agent = some b → b c.calls = .ok r1 → r1.parsed = none →
       b (c.calls + 1) = .ok r2 →
       ∃ u, (process env message c).1.getLast? = some u ∧ u.status = .done) ∧
    (∀ (env : Env) (message : String) (c : RunState) (b : Backend) (r1 : ModelReply)
       (a nt : JValue) (r2 r3 : ModelReply),
       env.agent = some b → b c.calls = .ok r1 → r1.parsed = some a →
       pyGet a "needs_tools" (.jbool false) = .ok nt → truthy nt = true →
       env.tools.isEmpty = false →
       b (c.calls + 1) = .ok r2 → r2.parsed = none →
       b (c.calls + 1 + 1) = .ok r3 →
       (process env message c).1.filter (fun u => u.status == .executing) = [] ∧
       ∃ u, (process env message c).1.getLast? = some u ∧ u.status = .done) := by
  refine ⟨?_, ?_, ?_, ?_⟩
  · intro env message c b r hA hb hp
    simp [_analyze_request, record_message, hA, hb, hp]
  · intro env c b r hA htools hb hp
    simp [_plan_tool_usage, record_message, hA, htools, hb, hp]
  · intro env message c b r1 r2 hA h0 hp1 h1
    have h := processAux_analyze_unparsable env message
      { c with start_time := c.clock, clock := c.clock + 1 } b r1 r2 hA h0 hp1 h1
    unfold process
    rcases hP : processAux env message { c with start_time := c.clock, clock := c.clock + 1 }
      with ⟨us, c2, r⟩
    rw [hP] at h
    simp only at h
    obtain ⟨hr, hu⟩ := h
    subst hr
    simp only [hP]
    simpa using hu
  · intro env message c b r1 a nt r2 r3 hA h0 hp1 hnt htr htools h1 hp2 h2
    have h := processAux_plan_unparsable env message
      { c with start_time := c.clock, clock := c.clock + 1 } b r1 a nt r2 r3
      hA h0 hp1 hnt htr htools h1 hp2 h2
    unfold process
    rcases hP : processAux env message { c with start_time := c.clock, clock := c.clock + 1 }
      with ⟨us, c2, r⟩
    rw [hP] at h
    simp only at h
    obtain ⟨hr, hfil, hu⟩ := h
    subst hr
    simp only [hP]
    exact ⟨by simpa using hfil, by simpa using hu⟩

/-- Claim C2 is violated by the code: AssistantAgent._update_status
overrides the base version without ever assigning self.status, so after
a fully drained run get_result reads the untouched initial status. On a
run whose terminal update is DONE, get_result reports success = false,
and on a run whose terminal update is ERROR, get_result reports a null
error text — both directions of the claim fail. -/
theorem c2_get_result_ignores_terminal_status :
    ((process envOk "Hello" initialState).1.getLast?).map (fun u => u.status)
      = some .done ∧
    (get_result (process envOk "Hello" initialState).2).success = false ∧
    ((process envNoAgent "Hi" initialState).1.getLast?).map (fun u => u.status)
      = some .error ∧
    (get_result (process envNoAgent "Hi" initialState).2).error = none :=
  ⟨rfl, rfl, rfl, rfl⟩

/-- Counterexample to claim C6 as stated: a run of envTwoCost makes two
backend calls, the analyzer call reporting cost 5 and the synthesis
call reporting cost 3, yet token_count grows by 3 only — the analyzer
cost is never added, refuting increment-per-call. -/
theorem c6_cex_analyzer_cost_not_counted :
    twoCostBackend 0 = .ok replyCost5 ∧ replyCost5.token_count = 5 ∧
    twoCostBackend 1 = .ok replyCost3 ∧ replyCost3.token_count = 3 ∧
    (process envTwoCost "m" initialState).2.calls = 2 ∧
    (process envTwoCost "m" initialState).2.token_count = 3 ∧
    ¬ (process envTwoCost "m" initialState).2.token_count
        = initialState.token_count + 5 + 3 :=
  ⟨rfl, rfl, rfl, rfl, rfl, rfl, by decide⟩

/-- Counterexample to claim C7 as stated: the analyzer reply of
envMalformed is valid JSON (hence parsable) but malformed structured
output (a JSON array where an object is expected); json.loads succeeds,
so the fallback of _analyze_request does not trigger, and the
subsequent .get on the non-dict raises: the run terminates with ERROR
and the failure is surfaced to the caller instead of being recovered. -/
theorem c7_cex_malformed_json_not_recovered :
    malformedBackend 0 = .ok malformedReply ∧
    malformedReply.parsed = some (.jarr [.jnum 1]) ∧
    ((process envMalformed "m" initialState).1.getLast?).map (fun u => u.status)
      = some .error ∧
    ((process envMalformed "m" initialState).1.getLast?).map (fun u => u.error)
      = some (some
          "Error processing message: AttributeError: object has no attribute get for key needs_tools") :=
  ⟨rfl, rfl, rfl, rfl⟩

theorem c1_witness :
    ("hi" : String) ≠ "" ∧
    ((process envNoAgent "hi" initialState).1 ≠ [] ∧
     ∃ u, (process envNoAgent "hi" initialState).1.getLast? = some u ∧
       (u.status = .done ∨ u.status = .error)) :=
  ⟨by decide, c1_process_terminal envNoAgent "hi" initialState (by decide)⟩

theorem c3_witness :
    (process envNoAgent "hi" initialState).1.getLast? = some errLastUpdate ∧
    errLastUpdate.status = .error ∧
    (process envNoAgent "hi" initialState).2.chat_history = initialState.chat_history :=
  ⟨rfl, rfl, c3_error_run_preserves_history envNoAgent "hi" initialState errLastUpdate rfl rfl⟩

theorem c4_witness :
    (process envOk "Hello" initialState).1.getLast? = some doneLastUpdate ∧
    doneLastUpdate.status = .done ∧
    ∃ b r, envOk.agent = some b ∧
      b ((process envOk "Hello" initialState).2.calls - 1) = .ok r ∧
      (∃ t1 t2, (process envOk "Hello" initialState).2.chat_history
        = initialState.chat_history
          ++ [Turn.mk "user" "Hello" t1, Turn.mk "assistant" r.message t2]) ∧
      (process envOk "Hello" initialState).2.token_count
        = initialState.token_count + r.token_count :=
  ⟨rfl, rfl, c4_done_run_appends_two_turns envOk "Hello" initialState doneLastUpdate rfl rfl⟩

theorem c5_witness :
    envPlan.agent = some planBackend ∧
    planBackend 0 = .ok analysisNeedsTools ∧
    analysisNeedsTools.parsed = some (.jobj [("needs_tools", .jbool true)]) ∧
    pyGet (.jobj [("needs_tools", .jbool true)]) "needs_tools" (.jbool false)
      = .ok (.jbool true) ∧
    truthy (.jbool true) = true ∧
    envPlan.tools.isEmpty = false ∧
    planBackend 1 = .ok planReply ∧
    planReply.parsed = some (.jobj [("tools", .jarr plannedEntries)]) ∧
    jLookup [("tools", .jarr plannedEntries)] "tools" = some (.jarr plannedEntries) ∧
    plannedEntries ≠ [] ∧
    (∀ t ∈ plannedEntries, wfToolEntry t = true) ∧
    ((process envPlan "m" initialState).1.filter (fun u => u.status == .executing)).map
        (fun u => u.task)
      = some ("Using tools: " ++ String.intercalate ", " (plannedEntries.map entryName))
        :: plannedEntries.map (fun t => some ("Executed " ++ entryName t)) :=
  ⟨rfl, rfl, rfl, rfl, rfl, rfl, rfl, rfl, rfl, by simp [plannedEntries], by decide,
   c5_executing_updates_match_plan envPlan "m" initialState planBackend analysisNeedsTools
     (.jobj [("needs_tools", .jbool true)]) (.jbool true) planReply
     [("tools", .jarr plannedEntries)] plannedEntries rfl rfl rfl rfl rfl rfl rfl rfl rfl
     (by simp [plannedEntries]) (by decide)⟩

theorem c6_witness :
    (process envOk "Hello" initialState).1.getLast? = some doneLastUpdate ∧
    doneLastUpdate.status = .done ∧
    ∃ b r, envOk.agent = some b ∧
      b ((process envOk "Hello" initialState).2.calls - 1) = .ok r ∧
      (process envOk "Hello" initialState).2.token_count
        = initialState.token_count + r.token_count :=
  ⟨rfl, rfl,
   (c6_token_count_final_call_only envOk "Hello" initialState).2.2 doneLastUpdate rfl rfl⟩

theorem c7_witness :
    envUnparsable.agent = some unparsableBackend ∧
    unparsableBackend 0 = .ok unparsableReply ∧
    unparsableReply.parsed = none ∧
    unparsableBackend (0 + 1) = .ok finalReply ∧
    (∃ u, (process envUnparsable "q" initialState).1.getLast? = some u ∧
       u.status = .done) :=
  ⟨rfl, rfl, rfl, rfl,
   c7_unparsable_reply_degrades.2.2.1 envUnparsable "q" initialState unparsableBackend
     unparsableReply finalReply rfl rfl rfl rfl⟩

theorem c8_witness :
    envUnparsable.agent = some unparsableBackend ∧
    unparsableBackend 0 = .ok unparsableReply ∧
    unparsableReply.parsed = none ∧
    _analyze_request envUnparsable "q" initialState
      = (.ok (defaultAnalysis "q"), { initialState with calls := initialState.calls + 1 }) :=
  ⟨rfl, rfl, rfl,
   (c8_analyze_request_defaults envUnparsable "q" initialState).2 unparsableBackend
     unparsableReply rfl rfl rfl⟩

theorem c9_witness :
    [searchTool].find? (fun t2 => nameMatches t2.name (.jstr "search")) = some searchTool ∧
    searchTool.func [] = .ok (.jstr "found") ∧
    _execute_tool [searchTool] (.jstr "search") []
      = { success := true, result := some (.jstr "found"), error := none } :=
  ⟨rfl, rfl,
   ((c9_execute_tool_total [searchTool] "search" []).2 searchTool rfl).1 (.jstr "found") rfl⟩

theorem c10_witness :
    dupA.name = "dup" ∧
    (∀ t2 ∈ [searchTool], t2.name ≠ "dup") ∧
    _execute_tool [searchTool, dupA, dupB] (.jstr "dup") []
      = { success := true, result := some (.jstr "A"), error := none } :=
  ⟨rfl, by decide,
   (c10_first_registered_match_wins [searchTool] [dupB] dupA "dup" [] rfl (by decide)).1
     (.jstr "A") rfl⟩

end SuperAgent
